import Mathlib

/-!
Verification of the resumable PostgreSQL migration engine
(`migration_script/data_migrator.py`, `migration_script/progress_tracker.py`).

The Python code is shallowly embedded:
* Python runtime values that can sit in a database cell are `PyVal`
  (tuples are folded into `PyVal.list`, mirroring the code's uniform
  `(list, tuple)` handling; `PyVal.bytes` stands for a value that
  `json.dumps` cannot serialize, such as Python `bytes`).
* `json.dumps` / `json.loads` are modelled by an executable serializer and
  a fuel-indexed recursive-descent parser of the JSON grammar.
* `DataMigrator.convert_data_for_insert` is `convert_data_for_insert`;
  a raised exception is an `Except.error`.
* `DataMigrator.migrate_table_data` is `migrate_table_data`: the chunk loop
  becomes a fuel-indexed loop over an explicit `RunState`, the source table
  is a list of rows, SQL `ORDER BY`/`WHERE key > x`/`LIMIT`/`OFFSET` become
  sort/filter/take/drop, and chunk-level exceptions (insert/commit failures)
  are injected by a `failures` oracle, one flag per loop iteration.
* `ProgressTracker._load_progress` / `get_progress` are modelled over an
  abstract persisted-file state.
-/

namespace MigrationModel

/-- Embedding of the Python values handled by the migrator.  `float m e`
is the decimal value `m / 10^e`; the code only ever formats floats whose
shortest `repr` is exactly that decimal form.  Python tuples are folded
into `list`; `bytes` models a JSON-unserializable value. -/
inductive PyVal where
  | none
  | bool (b : Bool)
  | int (n : Int)
  | float (mant : Int) (frac : Nat)
  | str (s : String)
  | list (xs : List PyVal)
  | dict (kvs : List (String × PyVal))
  | bytes (bs : List Nat)

/-!
### Python string primitives

All string operations used by the code are implemented over `String.data`
(the character list), so that every definition reduces inside the kernel;
the corresponding core `String` functions are compiled by well-founded
recursion and do not. -/

/-- Python `s.strip()` (also `.trim()` semantics): drop surrounding whitespace. -/
def pyStrip (s : String) : String :=
  String.mk (((s.data.dropWhile Char.isWhitespace).reverse.dropWhile Char.isWhitespace).reverse)

def lowerChar (c : Char) : Char :=
  if 65 ≤ c.toNat ∧ c.toNat ≤ 90 then Char.ofNat (c.toNat + 32) else c

def upperChar (c : Char) : Char :=
  if 97 ≤ c.toNat ∧ c.toNat ≤ 122 then Char.ofNat (c.toNat - 32) else c

/-- Python `s.lower()` (ASCII range; the code only compares ASCII tokens). -/
def pyLower (s : String) : String := String.mk (s.data.map lowerChar)

/-- Python `s.upper()` (ASCII range). -/
def pyUpper (s : String) : String := String.mk (s.data.map upperChar)

/-- `pat` occurs in `cs` (naive substring search). -/
def listContainsSub (pat : List Char) : List Char → Bool
  | [] => pat.isEmpty
  | c :: cs => pat.isPrefixOf (c :: cs) || listContainsSub pat cs

/-- `'pat' in s` for Python strings (substring containment). -/
def strContains (s pat : String) : Bool := listContainsSub pat.data s.data

def pyStartsWith (s pre : String) : Bool := pre.data.isPrefixOf s.data

def pyEndsWith (s suf : String) : Bool := suf.data.isSuffixOf s.data

/-- Split on an occurrence of `pat`: chars before it and chars after it. -/
def splitAtSub (pat : List Char) : List Char → Option (List Char × List Char)
  | [] => Option.none
  | c :: cs =>
      if pat.isPrefixOf (c :: cs) then some ([], (c :: cs).drop pat.length)
      else (splitAtSub pat cs).map (fun p => (c :: p.1, p.2))

def pySplitGo (sep : List Char) : Nat → List Char → List String
  | 0, cs => [String.mk cs]
  | fuel + 1, cs =>
      match splitAtSub sep cs with
      | some (before, after) => String.mk before :: pySplitGo sep fuel after
      | Option.none => [String.mk cs]

/-- Python `s.split(sep)` with an explicit non-empty separator
(empty pieces are kept). -/
def pySplit (s sep : String) : List String :=
  pySplitGo sep.data s.data.length s.data

def pyReplaceGo (pat rep : List Char) : Nat → List Char → List Char
  | 0, cs => cs
  | fuel + 1, cs =>
      match splitAtSub pat cs with
      | some (before, after) => before ++ rep ++ pyReplaceGo pat rep fuel after
      | Option.none => cs

/-- Python `s.replace(pat, rep)` with a non-empty `pat`. -/
def pyReplace (s pat rep : String) : String :=
  String.mk (pyReplaceGo pat.data rep.data s.data.length s.data)

/-- Python truthiness of an optional string (`None` and `""` are falsy). -/
def truthyStr : Option String → Bool
  | Option.none => false
  | some s => !s.data.isEmpty

/-- Python `item.strip('"\'')`: remove leading/trailing quote characters. -/
def stripQuotes (s : String) : String :=
  let isQ := fun c : Char => c = '"' ∨ c = Char.ofNat 39
  String.mk ((s.data.dropWhile isQ).reverse.dropWhile isQ).reverse

/-- Numeric value of a digit list (most significant first). -/
def digitsVal (ds : List Char) : Nat :=
  ds.foldl (fun a c => a * 10 + (c.toNat - 48)) 0

def allDigits (ds : List Char) : Bool := !ds.isEmpty && ds.all (·.isDigit)

/-- Python `int(s)` on a string: optional sign, then decimal digits
(surrounding whitespace stripped); `Option.none` models `ValueError`. -/
def pyIntStr? (s : String) : Option Int :=
  match (pyStrip s).data with
  | '+' :: ds => if allDigits ds then some (Int.ofNat (digitsVal ds)) else Option.none
  | '-' :: ds => if allDigits ds then some (-(Int.ofNat (digitsVal ds))) else Option.none
  | ds => if allDigits ds then some (Int.ofNat (digitsVal ds)) else Option.none

/-- Split a char list into its leading digit run and the rest. -/
def takeDigits (cs : List Char) : List Char × List Char :=
  match cs with
  | c :: rest =>
      if c.isDigit then
        let (ds, r) := takeDigits rest
        (c :: ds, r)
      else ([], cs)
  | [] => ([], [])

/-- Build the decimal float `(mant, frac)` for digits `intp.fracp ⬝ 10^ex`. -/
def mkDecimal (neg : Bool) (intp fracp : List Char) (ex : Int) : Int × Nat :=
  let m0 : Int := Int.ofNat (digitsVal (intp ++ fracp))
  let m : Int := if neg then -m0 else m0
  let net : Int := ex - Int.ofNat fracp.length
  if 0 ≤ net then (m * (10 : Int) ^ net.toNat, 0) else (m, net.natAbs)

/-- Python `float(s)` on a string, as a decimal `(mantissa, scale)`:
sign, digits with optional fraction, optional exponent.  (`inf`/`nan`
literals are not modelled.)  `Option.none` models `ValueError`. -/
def pyFloatStr? (s : String) : Option (Int × Nat) :=
  let t := (pyStrip s).data
  let (neg, t1) := match t with
    | '+' :: r => (false, r)
    | '-' :: r => (true, r)
    | r => (false, r)
  let (intp, r1) := takeDigits t1
  let (fracp, r2) := match r1 with
    | '.' :: rf => takeDigits rf
    | _ => ([], r1)
  if intp.isEmpty ∧ fracp.isEmpty then Option.none
  else
    match r2 with
    | [] => some (mkDecimal neg intp fracp 0)
    | e :: r3 =>
        if e = 'e' ∨ e = 'E' then
          let (eneg, r4) := match r3 with
            | '+' :: r => (false, r)
            | '-' :: r => (true, r)
            | r => (false, r)
          let (eds, r5) := takeDigits r4
          if eds.isEmpty ∨ ¬r5.isEmpty then Option.none
          else
            let ev : Int := if eneg then -(Int.ofNat (digitsVal eds)) else Int.ofNat (digitsVal eds)
            some (mkDecimal neg intp fracp ev)
        else Option.none

/-- Render the decimal float `m / 10^e` the way Python `str` renders the
corresponding float (`str(0.1) = "0.1"`, `str(1.0) = "1.0"`). -/
def floatRepr (m : Int) (e : Nat) : String :=
  if e = 0 then toString m ++ ".0"
  else
    let ds := (toString m.natAbs).data
    let ds := if ds.length ≤ e then List.replicate (e + 1 - ds.length) '0' ++ ds else ds
    let ip := String.mk (ds.take (ds.length - e))
    let fp := String.mk ((ds.reverse.take e).reverse)
    (if m < 0 then "-" else "") ++ ip ++ "." ++ fp

/-- Truncation toward zero of the decimal float `m / 10^e` (Python `int(f)`). -/
def floatTruncToInt (m : Int) (e : Nat) : Int :=
  if 0 ≤ m then Int.ofNat (m.toNat / 10 ^ e) else -(Int.ofNat (m.natAbs / 10 ^ e))

def joinSep (sep : String) : List String → String
  | [] => ""
  | [x] => x
  | x :: xs => x ++ sep ++ joinSep sep xs

/-- JSON string escaping as done by `json.dumps` (default `ensure_ascii`). -/
def jsonQuoteChar (c : Char) : String :=
  if c = '"' then "\\\""
  else if c = '\\' then "\\\\"
  else if c = '\n' then "\\n"
  else if c = '\t' then "\\t"
  else if c = '\r' then "\\r"
  else if c = Char.ofNat 8 then "\\b"
  else if c = Char.ofNat 12 then "\\f"
  else if c.toNat < 32 ∨ 127 ≤ c.toNat then
    let n := c.toNat
    let hx := fun (d : Nat) => String.singleton (Nat.digitChar (d % 16))
    "\\u" ++ hx (n / 4096) ++ hx (n / 256) ++ hx (n / 16) ++ hx n
  else String.singleton c

def jsonQuote (s : String) : String :=
  "\"" ++ String.join (s.data.map jsonQuoteChar) ++ "\""

mutual
/-- Text produced by `json.dumps` (default separators) on a serializable
value; garbage on `bytes`, which `jsonSerializable` rules out. -/
def jsonDumpsStr : PyVal → String
  | PyVal.none => "null"
  | PyVal.bool b => if b then "true" else "false"
  | PyVal.int n => toString n
  | PyVal.float m e => floatRepr m e
  | PyVal.str s => jsonQuote s
  | PyVal.list xs => "[" ++ joinSep ", " (jsonDumpsList xs) ++ "]"
  | PyVal.dict kvs => "\x7b" ++ joinSep ", " (jsonDumpsKVs kvs) ++ "\x7d"
  | PyVal.bytes _ => ""

def jsonDumpsList : List PyVal → List String
  | [] => []
  | x :: xs => jsonDumpsStr x :: jsonDumpsList xs

def jsonDumpsKVs : List (String × PyVal) → List String
  | [] => []
  | (k, v) :: kvs => (jsonQuote k ++ ": " ++ jsonDumpsStr v) :: jsonDumpsKVs kvs
end

mutual
/-- Whether `json.dumps` succeeds on the value (it raises `TypeError` on
values such as `bytes`, anywhere in the structure). -/
def jsonSerializable : PyVal → Bool
  | PyVal.bytes _ => false
  | PyVal.list xs => jsonSerializableList xs
  | PyVal.dict kvs => jsonSerializableKVs kvs
  | _ => true

def jsonSerializableList : List PyVal → Bool
  | [] => true
  | x :: xs => jsonSerializable x && jsonSerializableList xs

def jsonSerializableKVs : List (String × PyVal) → Bool
  | [] => true
  | (_, v) :: kvs => jsonSerializable v && jsonSerializableKVs kvs
end

/-- `json.dumps`: the serialized text, or an error for unserializable input. -/
def jsonDumpsE (v : PyVal) : Except String String :=
  if jsonSerializable v then Except.ok (jsonDumpsStr v)
  else Except.error "Object is not JSON serializable"

mutual
/-- Python `repr(v)` (reprs of nested structures follow the bracketed
shape CPython prints; byte strings are approximated). -/
def pyRepr : PyVal → String
  | PyVal.none => "None"
  | PyVal.bool b => if b then "True" else "False"
  | PyVal.int n => toString n
  | PyVal.float m e => floatRepr m e
  | PyVal.str s => String.singleton (Char.ofNat 39) ++ s ++ String.singleton (Char.ofNat 39)
  | PyVal.list xs => "[" ++ joinSep ", " (pyReprList xs) ++ "]"
  | PyVal.dict kvs => "\x7b" ++ joinSep ", " (pyReprKVs kvs) ++ "\x7d"
  | PyVal.bytes _ => "b"

def pyReprList : List PyVal → List String
  | [] => []
  | x :: xs => pyRepr x :: pyReprList xs

def pyReprKVs : List (String × PyVal) → List String
  | [] => []
  | (k, v) :: kvs =>
      (String.singleton (Char.ofNat 39) ++ k ++ String.singleton (Char.ofNat 39) ++ ": " ++ pyRepr v)
        :: pyReprKVs kvs
end

/-- Python `str(v)`: identity on strings, `repr` on everything else
(which coincides with `str` for the built-in types involved). -/
def pyStr : PyVal → String
  | PyVal.str s => s
  | v => pyRepr v

/-! ## JSON parsing (`json.loads`) -/

def skipWs : List Char → List Char
  | c :: cs => if c = ' ' ∨ c = '\t' ∨ c = '\n' ∨ c = '\r' then skipWs cs else c :: cs
  | [] => []

def hexDigit? (c : Char) : Option Nat :=
  if '0' ≤ c ∧ c ≤ '9' then some (c.toNat - 48)
  else if 'a' ≤ c ∧ c ≤ 'f' then some (c.toNat - 87)
  else if 'A' ≤ c ∧ c ≤ 'F' then some (c.toNat - 55)
  else Option.none

/-- Body of a JSON string literal (after the opening quote), returning the
decoded string and the input after the closing quote. -/
def parseJStringAux : List Char → String → Option (String × List Char)
  | [], _ => Option.none
  | '"' :: rest, acc => some (acc, rest)
  | '\\' :: c :: rest, acc =>
      if c = '"' then parseJStringAux rest (acc.push '"')
      else if c = '\\' then parseJStringAux rest (acc.push '\\')
      else if c = '/' then parseJStringAux rest (acc.push '/')
      else if c = 'b' then parseJStringAux rest (acc.push (Char.ofNat 8))
      else if c = 'f' then parseJStringAux rest (acc.push (Char.ofNat 12))
      else if c = 'n' then parseJStringAux rest (acc.push '\n')
      else if c = 'r' then parseJStringAux rest (acc.push '\r')
      else if c = 't' then parseJStringAux rest (acc.push '\t')
      else if c = 'u' then
        match rest with
        | h1 :: h2 :: h3 :: h4 :: r =>
            match hexDigit? h1, hexDigit? h2, hexDigit? h3, hexDigit? h4 with
            | some a, some b, some c3, some d =>
                parseJStringAux r (acc.push (Char.ofNat (a * 4096 + b * 256 + c3 * 16 + d)))
            | _, _, _, _ => Option.none
        | _ => Option.none
      else Option.none
  | [_], _ => Option.none
  | c :: rest, acc =>
      if c.toNat < 32 then Option.none else parseJStringAux rest (acc.push c)

/-- A JSON number: mantissa digits (no leading zeros), optional fraction,
optional exponent.  Integer literals become `PyVal.int`, the rest decimal
floats — matching Python's `json` module. -/
def parseJNumber : List Char → Option (PyVal × List Char)
  | cs =>
    let (neg, t1) := match cs with
      | '-' :: r => (true, r)
      | r => (false, r)
    let (intp, r1) := takeDigits t1
    match intp with
    | [] => Option.none
    | d0 :: ds0 =>
      if d0 = '0' ∧ ¬ds0.isEmpty then Option.none
      else
        let (fracp, hasFrac, r2) := match r1 with
          | '.' :: rf =>
              let (fs, rr) := takeDigits rf
              (fs, true, rr)
          | _ => ([], false, r1)
        if hasFrac ∧ fracp.isEmpty then Option.none
        else
          let expRes : Option (Int × List Char) := match r2 with
            | e :: r3 =>
                if e = 'e' ∨ e = 'E' then
                  let (eneg, r4) := match r3 with
                    | '+' :: r => (false, r)
                    | '-' :: r => (true, r)
                    | r => (false, r)
                  let (eds, r5) := takeDigits r4
                  if eds.isEmpty then Option.none
                  else some ((if eneg then -(Int.ofNat (digitsVal eds)) else Int.ofNat (digitsVal eds)), r5)
                else some (0, r2)
            | [] => some (0, r2)
          match expRes with
          | Option.none => Option.none
          | some (ev, rest) =>
            let hasExp : Bool := decide (rest ≠ r2)
            if ¬hasFrac ∧ ¬hasExp then
              some (PyVal.int (if neg then -(Int.ofNat (digitsVal intp)) else Int.ofNat (digitsVal intp)), rest)
            else
              let (m, e) := mkDecimal neg intp fracp ev
              some (PyVal.float m e, rest)

mutual
/-- Fuel-indexed recursive-descent parser for a JSON value. -/
def parseJVal : Nat → List Char → Option (PyVal × List Char)
  | 0, _ => Option.none
  | fuel + 1, cs =>
    match skipWs cs with
    | '"' :: rest => (parseJStringAux rest "").map (fun p => (PyVal.str p.1, p.2))
    | '\x7b' :: rest =>
        (match skipWs rest with
         | '\x7d' :: r2 => some (PyVal.dict [], r2)
         | cs2 => (parseJMembers fuel cs2).map (fun p => (PyVal.dict p.1, p.2)))
    | '[' :: rest =>
        (match skipWs rest with
         | ']' :: r2 => some (PyVal.list [], r2)
         | cs2 => (parseJItems fuel cs2).map (fun p => (PyVal.list p.1, p.2)))
    | 't' :: 'r' :: 'u' :: 'e' :: rest => some (PyVal.bool true, rest)
    | 'f' :: 'a' :: 'l' :: 's' :: 'e' :: rest => some (PyVal.bool false, rest)
    | 'n' :: 'u' :: 'l' :: 'l' :: rest => some (PyVal.none, rest)
    | cs2 => parseJNumber cs2

/-- Comma-separated JSON array items up to the closing bracket. -/
def parseJItems : Nat → List Char → Option (List PyVal × List Char)
  | 0, _ => Option.none
  | fuel + 1, cs => do
    let (v, rest) ← parseJVal fuel cs
    match skipWs rest with
    | ',' :: r2 => do
        let (vs, r3) ← parseJItems fuel r2
        pure (v :: vs, r3)
    | ']' :: r2 => pure ([v], r2)
    | _ => Option.none

/-- Comma-separated JSON object members up to the closing brace. -/
def parseJMembers : Nat → List Char → Option (List (String × PyVal) × List Char)
  | 0, _ => Option.none
  | fuel + 1, cs =>
    match skipWs cs with
    | '"' :: rest => do
        let (k, r1) ← parseJStringAux rest ""
        match skipWs r1 with
        | ':' :: r2 => do
            let (v, r3) ← parseJVal fuel r2
            match skipWs r3 with
            | ',' :: r4 => do
                let (kvs, r5) ← parseJMembers fuel r4
                pure ((k, v) :: kvs, r5)
            | '\x7d' :: r4 => pure ([(k, v)], r4)
            | _ => Option.none
        | _ => Option.none
    | _ => Option.none
end

/-- `json.loads` on a string: parse one JSON document with nothing but
whitespace after it; `Option.none` models `JSONDecodeError`. -/
def jsonLoads (s : String) : Option PyVal :=
  match parseJVal (2 * s.length + 4) s.data with
  | some (v, rest) => if (skipWs rest).isEmpty then some v else Option.none
  | Option.none => Option.none

/-! ## `DataMigrator.convert_data_for_insert` -/

/-- Base types converted with `int(item)` (data_migrator.py line 62). -/
def intBaseTypes : List String := ["bigint", "int8", "integer", "int", "int4", "smallint", "int2"]

/-- Base types converted with `float(item)` (data_migrator.py line 64). -/
def floatBaseTypes : List String :=
  ["real", "float4", "double precision", "float8", "numeric", "decimal"]

/-- Truthy literals for boolean array elements (data_migrator.py line 67). -/
def boolTrueLiterals : List String := ["true", "t", "1", "yes", "on"]

/-- One (already `strip`ped, non-empty) element of a curly-brace array
literal, coerced to the base scalar type; the per-element
`ValueError`/`TypeError` handler folds the fallback
`item.strip('"\'')` into the result (lines 61-73). -/
def convertCurlyItem (base_type item : String) : PyVal :=
  if intBaseTypes.contains base_type then
    match pyIntStr? item with
    | some n => PyVal.int n
    | Option.none => PyVal.str (stripQuotes item)
  else if floatBaseTypes.contains base_type then
    match pyFloatStr? item with
    | some me => PyVal.float me.1 me.2
    | Option.none => PyVal.str (stripQuotes item)
  else if base_type = "boolean" ∨ base_type = "bool" then
    PyVal.bool (boolTrueLiterals.contains (pyLower item))
  else
    PyVal.str (stripQuotes item)

/-- Element loop for a `{...}` array literal: split on commas, strip each
piece, skip empty pieces, coerce the rest (lines 53-76). -/
def parseCurlyArray (base_type inner : String) : List PyVal :=
  (pySplit inner ",").filterMap fun piece =>
    let item := pyStrip piece
    if item.data.isEmpty then Option.none
    else some (convertCurlyItem base_type item)

/-- Python `int(item)` on a JSON-decoded element (lines 86-87):
truncates floats, parses strings, maps booleans; `Option.none` models the
caught `ValueError`/`TypeError`. -/
def pyIntOf : PyVal → Option Int
  | PyVal.int n => some n
  | PyVal.float m e => some (floatTruncToInt m e)
  | PyVal.bool b => some (if b then 1 else 0)
  | PyVal.str s => pyIntStr? s
  | _ => Option.none

/-- Python `float(item)` on a JSON-decoded element (lines 88-89). -/
def pyFloatOf : PyVal → Option (Int × Nat)
  | PyVal.int n => some (n, 0)
  | PyVal.float m e => some (m, e)
  | PyVal.bool b => some (if b then 1 else 0, 0)
  | PyVal.str s => pyFloatStr? s
  | _ => Option.none

/-- Coercion of one element of a JSON-style `[...]` array literal
(lines 84-93); a failed coercion keeps the element unchanged. -/
def coerceJsonItem (base_type : String) (item : PyVal) : PyVal :=
  if intBaseTypes.contains base_type then
    match pyIntOf item with
    | some n => PyVal.int n
    | Option.none => item
  else if floatBaseTypes.contains base_type then
    match pyFloatOf item with
    | some me => PyVal.float me.1 me.2
    | Option.none => item
  else item

/-- `DataMigrator.convert_data_for_insert` (data_migrator.py lines 22-114).
`column_type = Option.none` models a `None` column type (treated as text).
`Except.error` models an uncaught exception escaping the call — the only
source is `json.dumps` on an unserializable value. -/
def convert_data_for_insert (value : PyVal) (column_type : Option String) : Except String PyVal :=
  match value with
  | PyVal.none => Except.ok PyVal.none
  | v =>
    let ct := match column_type with
      | Option.none => "text"
      | some t => t
    if pyLower ct = "json" ∨ pyLower ct = "jsonb" then
      match v with
      | PyVal.dict _ => (jsonDumpsE v).map PyVal.str
      | PyVal.list _ => (jsonDumpsE v).map PyVal.str
      | PyVal.str s =>
          if (jsonLoads s).isSome then Except.ok (PyVal.str s)
          else (jsonDumpsE (PyVal.str s)).map PyVal.str
      | _ => (jsonDumpsE v).map PyVal.str
    else if pyEndsWith ct "[]" ∨ strContains (pyUpper ct) "ARRAY" then
      match v with
      | PyVal.list xs => Except.ok (PyVal.list xs)
      | PyVal.str s =>
          if pyStartsWith s "\x7b" ∧ pyEndsWith s "\x7d" then
            let inner := pyStrip (String.mk ((s.data.drop 1).dropLast))
            if inner.data.isEmpty then Except.ok (PyVal.list [])
            else
              let base_type := pyLower (pyStrip (pyReplace ct "[]" ""))
              Except.ok (PyVal.list (parseCurlyArray base_type inner))
          else if pyStartsWith s "[" ∧ pyEndsWith s "]" then
            match jsonLoads s with
            | some (PyVal.list xs) =>
                let base_type := pyLower (pyStrip (pyReplace ct "[]" ""))
                Except.ok (PyVal.list (xs.map (coerceJsonItem base_type)))
            | some v2 => Except.ok v2
            | Option.none => Except.ok (PyVal.list [PyVal.str s])
          else Except.ok (PyVal.list [PyVal.str s])
      | _ => Except.ok (PyVal.list [v])
    else if strContains (pyLower ct) "vector" then
      match v with
      | PyVal.list xs => Except.ok (PyVal.str ("[" ++ joinSep "," (xs.map pyStr) ++ "]"))
      | _ => Except.ok v
    else
      match v with
      | PyVal.dict _ => (jsonDumpsE v).map PyVal.str
      | PyVal.list _ => (jsonDumpsE v).map PyVal.str
      | _ => Except.ok v

/-! ## `MigrationProgress` and `ProgressTracker` (progress_tracker.py) -/

/-- The `MigrationProgress` dataclass (progress_tracker.py lines 7-13) as
the migrator itself maintains it: every checkpoint the code creates
(lines 124-126 of data_migrator.py) or mutates (lines 209-213, 234)
holds a string name, integer row counts, an optional string high-water
mark and a boolean flag, so those checkpoints are modelled with the
declared field types.  A `MigrationProgress` instance rebuilt from the
decoded progress file is modelled separately by `ProgressObj`, because
the dataclass performs no validation of field values. -/
structure MigrationProgress where
  table_name : String
  total_rows : Nat
  migrated_rows : Nat
  last_primary_key : Option String := Option.none
  completed : Bool := false
deriving DecidableEq

/-- State of the persisted progress file as seen by `_load_progress`. -/
inductive FileState where
  | absent
  | unreadable
  | content (s : String)

/-- A `MigrationProgress` instance as `MigrationProgress(**progress)`
builds it from a decoded JSON entry: the dataclass checks only the
keyword set, never the field values, so each field holds an arbitrary
decoded value. -/
structure ProgressObj where
  table_name : PyVal
  total_rows : PyVal
  migrated_rows : PyVal
  last_primary_key : PyVal
  completed : PyVal

/-- `MigrationProgress(**progress)` on one decoded JSON entry: it raises
`TypeError` (modelled as `Option.none`) exactly when the entry is not a
mapping, a required field is missing, or an unexpected keyword appears;
field values are taken as they are, with the dataclass defaults for the
two optional fields. -/
def parseProgressEntry (v : PyVal) : Option ProgressObj :=
  match v with
  | PyVal.dict kvs =>
      if (kvs.map Prod.fst).all (fun k =>
            k = "table_name" ∨ k = "total_rows" ∨ k = "migrated_rows" ∨
            k = "last_primary_key" ∨ k = "completed") then
        match kvs.lookup "table_name", kvs.lookup "total_rows", kvs.lookup "migrated_rows" with
        | some tn, some tot, some mig =>
            some { table_name := tn, total_rows := tot, migrated_rows := mig,
                   last_primary_key := (kvs.lookup "last_primary_key").getD PyVal.none,
                   completed := (kvs.lookup "completed").getD (PyVal.bool false) }
        | _, _, _ => Option.none
      else Option.none
  | _ => Option.none

def parseProgressEntries : List (String × PyVal) → Option (List (String × ProgressObj))
  | [] => some []
  | (t, v) :: rest => do
      let p ← parseProgressEntry v
      let m ← parseProgressEntries rest
      pure ((t, p) :: m)

/-- Decode the whole progress file: a JSON object whose members are
per-table checkpoints.  `Option.none` models any exception raised while
decoding (`json.load` on invalid JSON, `.items()` on a non-dict,
`MigrationProgress(**…)` on a bad keyword set). -/
def parseProgressFile (s : String) : Option (List (String × ProgressObj)) :=
  match jsonLoads s with
  | some (PyVal.dict entries) => parseProgressEntries entries
  | _ => Option.none

/-- `ProgressTracker._load_progress` (progress_tracker.py lines 30-45):
missing file, unreadable file, or any decoding exception all yield the
empty checkpoint map. -/
def load_progress (fs : FileState) : List (String × ProgressObj) :=
  match fs with
  | FileState.absent => []
  | FileState.unreadable => []
  | FileState.content s =>
      match parseProgressFile s with
      | some m => m
      | Option.none => []

/-- `ProgressTracker.get_progress` (lines 66-68): `dict.get`, over
whatever record type the map holds. -/
def get_progress {α : Type} (progress_data : List (String × α)) (table_name : String) :
    Option α :=
  progress_data.lookup table_name

/-! ## `DataMigrator.migrate_table_data` (data_migrator.py lines 116-236) -/

/-- A source row: `key` is the value of the primary-key column (an integer
key, the case the pagination logic is built for), `cells` the row's
columns by name. -/
structure SRow where
  key : Nat
  cells : List (String × PyVal)

/-- `a.key ≤ b.key`: the SQL `ORDER BY "pk"` ordering. -/
def keyle (a b : SRow) : Prop := a.key ≤ b.key

instance : DecidableRel keyle := fun a b => Nat.decLe a.key b.key

instance : IsTotal SRow keyle := ⟨fun a b => Nat.le_total a.key b.key⟩

instance : IsTrans SRow keyle := ⟨fun _ _ _ h1 h2 => Nat.le_trans h1 h2⟩

/-- `ORDER BY "pk"` on the source table. -/
def sortByKey (src : List SRow) : List SRow := List.insertionSort keyle src

/-- The value PostgreSQL compares `"pk" > %s` against: the stored string
cast back to the integer key type. -/
def parseKey (s : String) : Nat :=
  if allDigits s.data then digitsVal s.data else 0

/-- The static inputs of one `migrate_table_data` call, plus the fault
oracle: `failures i = true` injects an exception into the insert/commit of
loop iteration `i`.  `column_types` is the map `get_column_types` returned,
after the code's fallback to `'text'` for every column when introspection
yields nothing (lines 133-137). -/
structure TableRun where
  src : List SRow
  chunk_size : Nat
  columns : List String
  primary_key : Option String
  total_rows : Nat
  column_types : List (String × String)
  failures : Nat → Bool

/-- The page query (lines 144-164): keyset pagination
(`WHERE pk > last ORDER BY pk LIMIT chunk`) when a truthy high-water mark
and primary key exist, otherwise `LIMIT chunk OFFSET migrated_rows`,
ordered by the primary key only when one exists. -/
def fetchPage (cfg : TableRun) (progress : MigrationProgress) : List SRow :=
  if truthyStr progress.last_primary_key ∧ truthyStr cfg.primary_key then
    ((sortByKey cfg.src).filter
        (fun r => parseKey ((progress.last_primary_key).getD "") < r.key)).take cfg.chunk_size
  else if truthyStr cfg.primary_key then
    ((sortByKey cfg.src).drop progress.migrated_rows).take cfg.chunk_size
  else
    (cfg.src.drop progress.migrated_rows).take cfg.chunk_size

/-- `row[col]` for a fetched row (the dict-cursor lookup). -/
def cellValue (row : SRow) (col : String) : PyVal :=
  (row.cells.lookup col).getD PyVal.none

/-- The per-row conversion loop (lines 190-198): every cell is converted
with `convert_data_for_insert`; a raised conversion error is caught
per-cell and the original value is substituted. -/
def convertRowCells (column_types : List (String × String)) (columns : List String)
    (row : SRow) : List PyVal :=
  columns.map fun col =>
    let col_type := (column_types.lookup col).getD "text"
    match convert_data_for_insert (cellValue row col) (some col_type) with
    | Except.ok v => v
    | Except.error _ => cellValue row col

/-- Observable state threaded through the transfer loop: the in-memory
checkpoint, the committed target rows, and logs of every fetched page,
every persisted checkpoint and every failure backoff delay (seconds). -/
structure RunState where
  progress : MigrationProgress
  target : List (List PyVal)
  pages : List (List SRow)
  persisted : List MigrationProgress
  failDelays : List Nat

def initRunState (p : MigrationProgress) : RunState :=
  { progress := p, target := [], pages := [], persisted := [], failDelays := [] }

/-- `rows[-1].key`. -/
def lastRowKey (p : List SRow) : Nat :=
  match p.getLast? with
  | some r => r.key
  | Option.none => 0

/-- One iteration of the transfer loop body (lines 143-232).  Returns the
new state and whether the loop `break`s.  An empty page breaks the loop
(lines 166-168); an injected insert/commit failure rolls the chunk back,
records the fixed 5-second backoff and continues with nothing else
changed (lines 228-232); a successful chunk appends the converted rows to
the target, advances `migrated_rows`, updates the high-water mark when a
primary key exists, persists the checkpoint and breaks once
`migrated_rows ≥ total_rows` (lines 170-226).  The batch insert's
`ON CONFLICT DO NOTHING` only changes behaviour when the target already
holds conflicting rows; the target log records what each commit sends. -/
def migrateStep (cfg : TableRun) (iter : Nat) (st : RunState) : RunState × Bool :=
  let rows := fetchPage cfg st.progress
  let st1 := { st with pages := st.pages ++ [rows] }
  if rows.isEmpty then (st1, true)
  else
    let conv := rows.map (convertRowCells cfg.column_types cfg.columns)
    if cfg.failures iter then
      ({ st1 with failDelays := st1.failDelays ++ [5] }, false)
    else
      let pr1 := { st1.progress with migrated_rows := st1.progress.migrated_rows + rows.length }
      let pr2 := if truthyStr cfg.primary_key then
          { pr1 with last_primary_key := some (toString (lastRowKey rows)) }
        else pr1
      let st2 := { st1 with
        progress := pr2,
        target := st1.target ++ conv,
        persisted := st1.persisted ++ [pr2] }
      (st2, decide (cfg.total_rows ≤ pr2.migrated_rows))

/-- The `while progress.migrated_rows < total_rows` loop (line 142),
fuel-indexed.  The second component is `true` when the loop terminated
(by its condition or a `break`) and `false` when the fuel ran out with
the loop still running. -/
def migrateLoop (cfg : TableRun) : Nat → Nat → RunState → RunState × Bool
  | 0, _, st => (st, false)
  | fuel + 1, iter, st =>
      if st.progress.migrated_rows < cfg.total_rows then
        match migrateStep cfg iter st with
        | (st1, true) => (st1, true)
        | (st1, false) => migrateLoop cfg fuel (iter + 1) st1
      else (st, true)

/-- The checkpoint `migrate_table_data` starts from (lines 122-126): the
tracker's entry for the table, or a fresh one. -/
def loadProgress (tracker : List (String × MigrationProgress)) (table_name : String)
    (total_rows : Nat) : MigrationProgress :=
  match get_progress tracker table_name with
  | some p => p
  | Option.none =>
      { table_name := table_name, total_rows := total_rows, migrated_rows := 0 }

/-- `DataMigrator.migrate_table_data` (lines 116-236).  If the loaded
checkpoint is already `completed`, the call returns immediately with no
fetch and no insert (lines 128-130); otherwise the transfer loop runs and,
once it terminates, the checkpoint is force-marked completed and persisted
(lines 234-235).  The second component is `false` only when the fuel ran
out mid-loop. -/
def migrate_table_data (tracker : List (String × MigrationProgress)) (table_name : String)
    (cfg : TableRun) (fuel : Nat) : RunState × Bool :=
  let progress := loadProgress tracker table_name cfg.total_rows
  if progress.completed then (initRunState progress, true)
  else
    match migrateLoop cfg fuel 0 (initRunState progress) with
    | (st, true) =>
        let pr := { st.progress with completed := true }
        ({ st with progress := pr, persisted := st.persisted ++ [pr] }, true)
    | (st, false) => (st, false)

/-! ## Characterization of one loop iteration -/

theorem fetchPage_length_le (cfg : TableRun) (pr : MigrationProgress) :
    (fetchPage cfg pr).length ≤ cfg.chunk_size := by
  rw [fetchPage]
  split
  · exact List.length_take_le _ _
  · split
    · exact List.length_take_le _ _
    · exact List.length_take_le _ _

/-- An empty page breaks the loop with only the page log extended. -/
theorem migrateStep_empty (cfg : TableRun) (iter : Nat) (st : RunState)
    (he : fetchPage cfg st.progress = []) :
    migrateStep cfg iter st = ({ st with pages := st.pages ++ [[]] }, true) := by
  simp [migrateStep, he]

/-- An injected insert/commit failure rolls the chunk back: only the page
log and the fixed 5-second backoff log grow, and the loop continues. -/
theorem migrateStep_fail (cfg : TableRun) (iter : Nat) (st : RunState)
    (hne : fetchPage cfg st.progress ≠ []) (hf : cfg.failures iter = true) :
    migrateStep cfg iter st =
      ({ st with pages := st.pages ++ [fetchPage cfg st.progress],
                 failDelays := st.failDelays ++ [5] }, false) := by
  rw [migrateStep]
  rw [if_neg (by simpa [List.isEmpty_iff] using hne), if_pos hf]

/-- A successful chunk: converted rows are committed, `migrated_rows`
advances by the page length, the high-water mark moves to the page's last
key when a primary key exists, and the new checkpoint is persisted. -/
theorem migrateStep_succeed (cfg : TableRun) (iter : Nat) (st : RunState)
    (hne : fetchPage cfg st.progress ≠ []) (hf : cfg.failures iter = false) :
    migrateStep cfg iter st =
      (let rows := fetchPage cfg st.progress
       let pr2 : MigrationProgress := { st.progress with
         migrated_rows := st.progress.migrated_rows + rows.length,
         last_primary_key :=
           if truthyStr cfg.primary_key then some (toString (lastRowKey rows))
           else st.progress.last_primary_key }
       ({ st with progress := pr2,
                  target := st.target ++ rows.map (convertRowCells cfg.column_types cfg.columns),
                  pages := st.pages ++ [rows],
                  persisted := st.persisted ++ [pr2] },
        decide (cfg.total_rows ≤ st.progress.migrated_rows + rows.length))) := by
  rw [migrateStep]
  rw [if_neg (by simpa [List.isEmpty_iff] using hne), if_neg (by simp [hf])]
  rcases htr : truthyStr cfg.primary_key with _ | _ <;> simp [htr]

/-! ## Claim theorems -/

/-- C6: `convert_data_for_insert` round-trips representative serialized
values: declared type `integer[]` converts `'{1,2,3}'` to the ordered list
`[1, 2, 3]`; declared types `json` and `jsonb` return the valid JSON text
`'{"a":1}'` unchanged; a declared type containing `vector` converts the
sequence `[0.1, 0.2]` to the text `'[0.1,0.2]'`. -/
theorem C6_convert_round_trip :
    convert_data_for_insert (PyVal.str "\x7b1,2,3\x7d") (some "integer[]")
      = Except.ok (PyVal.list [PyVal.int 1, PyVal.int 2, PyVal.int 3]) ∧
    convert_data_for_insert (PyVal.str "\x7b\"a\":1\x7d") (some "json")
      = Except.ok (PyVal.str "\x7b\"a\":1\x7d") ∧
    convert_data_for_insert (PyVal.str "\x7b\"a\":1\x7d") (some "jsonb")
      = Except.ok (PyVal.str "\x7b\"a\":1\x7d") ∧
    convert_data_for_insert (PyVal.list [PyVal.float 1 1, PyVal.float 2 1]) (some "vector")
      = Except.ok (PyVal.str "[0.1,0.2]") :=
  ⟨rfl, rfl, rfl, rfl⟩

/-- Base-type dispatch of the curly-array element loop for boolean base
types: the coercion is total and always yields a boolean. -/
theorem convertCurlyItem_boolean (bt : String) (hb : bt = "boolean" ∨ bt = "bool")
    (item : String) :
    convertCurlyItem bt item = PyVal.bool (boolTrueLiterals.contains (pyLower item)) := by
  rcases hb with hb | hb <;> subst hb <;>
    rw [convertCurlyItem, if_neg (by decide), if_neg (by decide), if_pos (by decide)]

/-- C10: for an array column whose base type is `boolean`/`bool`, every
retained element of a curly-brace array literal is coerced to a `Bool` —
`true` exactly when its lowercased trimmed text is one of
`true`, `t`, `1`, `yes`, `on` — the conversion never raises, and no
element comes through as a string. -/
theorem C10_boolean_array_coercion (ct s : String)
    (hjson : ¬(pyLower ct = "json" ∨ pyLower ct = "jsonb"))
    (harr : pyEndsWith ct "[]" = true ∨ strContains (pyUpper ct) "ARRAY" = true)
    (hbool : pyLower (pyStrip (pyReplace ct "[]" "")) = "boolean" ∨
             pyLower (pyStrip (pyReplace ct "[]" "")) = "bool")
    (hopen : pyStartsWith s "\x7b" = true) (hclose : pyEndsWith s "\x7d" = true) :
    convert_data_for_insert (PyVal.str s) (some ct) =
      Except.ok (PyVal.list
        ((pySplit (pyStrip (String.mk ((s.data.drop 1).dropLast))) ",").filterMap
          (fun piece =>
            let item := pyStrip piece
            if item.data.isEmpty then Option.none
            else some (PyVal.bool (boolTrueLiterals.contains (pyLower item)))))) := by
  simp only [convert_data_for_insert]
  rw [if_neg hjson, if_pos harr, if_pos ⟨hopen, hclose⟩]
  rcases h0 : (pyStrip (String.mk ((s.data.drop 1).dropLast))).data.isEmpty with _ | _
  · rw [if_neg (by simp [h0])]
    rw [parseCurlyArray]
    refine congrArg _ (congrArg _ (List.filterMap_congr fun piece _ => ?_))
    simp only [convertCurlyItem_boolean _ hbool]
  · rw [if_pos (by simp [h0])]
    have hempty : pyStrip (String.mk ((s.data.drop 1).dropLast)) = "" := by
      rcases hx : pyStrip (String.mk ((s.data.drop 1).dropLast)) with ⟨d⟩
      cases d with
      | nil => rfl
      | cons a l => rw [hx] at h0; simp [List.isEmpty] at h0
    rw [hempty]
    rfl

/-- C10 witness: a concrete boolean array literal, with mixed-case,
whitespace-padded and empty elements, converts to exactly the predicted
booleans. -/
theorem C10_boolean_array_coercion_witness :
    convert_data_for_insert (PyVal.str "\x7bt, no ,TRUE,,0\x7d") (some "boolean[]") =
      Except.ok (PyVal.list
        ((pySplit (pyStrip (String.mk ((("\x7bt, no ,TRUE,,0\x7d" : String).data.drop 1).dropLast))) ",").filterMap
          (fun piece =>
            let item := pyStrip piece
            if item.data.isEmpty then Option.none
            else some (PyVal.bool (boolTrueLiterals.contains (pyLower item)))))) :=
  C10_boolean_array_coercion "boolean[]" "\x7bt, no ,TRUE,,0\x7d"
    (by decide) (Or.inl (by decide)) (Or.inl (by decide)) (by decide) (by decide)

/-- A progress file that is valid JSON with the right keyword sets but an
ill-typed field value: `completed` is the string `"yes"`, not a boolean,
violating the persisted-checkpoint format (a `completed (bool)` field). -/
def c9IllTypedFile : String :=
  "\x7b\"t\": \x7b\"table_name\": \"t\", \"total_rows\": 10, \"migrated_rows\": 3, \"completed\": \"yes\"\x7d\x7d"

/-- C9 counterexample: not every corrupted persisted state is treated as
empty.  A JSON-valid file whose checkpoint carries an ill-typed field
(`completed: "yes"`) is loaded by `_load_progress` into a NON-empty map —
`MigrationProgress(**progress)` never validates field values — and
`get_progress` returns the garbage record for that table, refuting the
claim that every corrupted file yields an empty map with `get_progress`
absent for every table. -/
theorem C9_ill_typed_file_loads_nonempty :
    get_progress (load_progress (FileState.content c9IllTypedFile)) "t" =
      some { table_name := PyVal.str "t", total_rows := PyVal.int 10,
             migrated_rows := PyVal.int 3, last_primary_key := PyVal.none,
             completed := PyVal.str "yes" } ∧
    load_progress (FileState.content c9IllTypedFile) ≠ [] := by
  refine ⟨rfl, ?_⟩
  rw [show load_progress (FileState.content c9IllTypedFile) =
        [("t", { table_name := PyVal.str "t", total_rows := PyVal.int 10,
                 migrated_rows := PyVal.int 3, last_primary_key := PyVal.none,
                 completed := PyVal.str "yes" })] from rfl]
  simp

/-- C9 (amended): when the progress file is absent, unreadable, or fails
to decode — invalid JSON, a non-object document, an entry that is not an
object, or an entry whose keyword set does not match the dataclass
fields — `ProgressTracker` loads the empty checkpoint map rather than
raising, and `get_progress` is then absent for every table.  (A decodable
file with the right keywords is loaded verbatim, even when its field
values are ill-typed.) -/
theorem C9_undecodable_progress_fresh (fs : FileState)
    (h : fs = FileState.absent ∨ fs = FileState.unreadable ∨
         ∃ s, fs = FileState.content s ∧ parseProgressFile s = Option.none) :
    load_progress fs = [] ∧
    ∀ t, get_progress (load_progress fs) t = Option.none := by
  have hload : load_progress fs = [] := by
    rcases h with h | h | ⟨s, hs, hp⟩
    · rw [h]; rfl
    · rw [h]; rfl
    · rw [hs, load_progress, hp]
  exact ⟨hload, fun t => by rw [hload]; rfl⟩

/-- C9 witness: a file whose content is not valid JSON yields the empty
map and no per-table checkpoint. -/
theorem C9_undecodable_progress_fresh_witness :
    load_progress (FileState.content "not json") = [] ∧
    ∀ t, get_progress (load_progress (FileState.content "not json")) t = Option.none :=
  C9_undecodable_progress_fresh (FileState.content "not json")
    (Or.inr (Or.inr ⟨"not json", rfl, rfl⟩))

/-- C7: a conversion error for one cell is caught per-cell: the converted
row keeps the original untouched value at that position and keeps its full
width, and a successfully committed chunk still inserts exactly one
converted row per fetched row, so no row or chunk is aborted by a single
failing cell. -/
theorem C7_per_cell_error_fallback
    (column_types : List (String × String)) (columns : List String) (row : SRow)
    (i : Nat) (hi : i < columns.length) (e : String)
    (herr : convert_data_for_insert (cellValue row columns[i])
              (some ((column_types.lookup columns[i]).getD "text")) = Except.error e) :
    (convertRowCells column_types columns row).length = columns.length ∧
    (convertRowCells column_types columns row)[i]? = some (cellValue row columns[i]) ∧
    ∀ (cfg : TableRun) (iter : Nat) (st : RunState), cfg.failures iter = false →
      fetchPage cfg st.progress ≠ [] →
      (migrateStep cfg iter st).1.target =
        st.target ++ (fetchPage cfg st.progress).map (convertRowCells cfg.column_types cfg.columns) := by
  refine ⟨by simp [convertRowCells], ?_, ?_⟩
  · rw [convertRowCells, List.getElem?_map, List.getElem?_eq_getElem hi]
    simp only [Option.map_some']
    rw [herr]
  · intro cfg iter st hfail hne
    rw [migrateStep]
    rw [if_neg (by simpa [List.isEmpty_iff] using hne), if_neg (by simp [hfail])]

def c7row : SRow := { key := 1, cells := [("b", PyVal.bytes [0])] }

/-- C7 witness: a `bytes` cell under a `json` column raises inside
`convert_data_for_insert`; the fallback keeps the original value and the
chunk inserts one converted row per fetched row. -/
theorem C7_per_cell_error_fallback_witness :
    (convertRowCells [("b", "json")] ["b"] c7row).length = ["b"].length ∧
    (convertRowCells [("b", "json")] ["b"] c7row)[0]? = some (cellValue c7row (["b"])[0]) ∧
    ∀ (cfg : TableRun) (iter : Nat) (st : RunState), cfg.failures iter = false →
      fetchPage cfg st.progress ≠ [] →
      (migrateStep cfg iter st).1.target =
        st.target ++ (fetchPage cfg st.progress).map (convertRowCells cfg.column_types cfg.columns) :=
  C7_per_cell_error_fallback [("b", "json")] ["b"] c7row 0 (by decide)
    "Object is not JSON serializable" rfl

/-- C5: if the loaded checkpoint is already caught up
(`migrated_rows ≥ total_rows`, whether or not `completed` is set), a new
`migrate_table_data` run fetches no page, inserts no row, terminates, and
ends with the checkpoint completed. -/
theorem C5_caught_up_run_is_noop (tracker : List (String × MigrationProgress)) (table : String)
    (cfg : TableRun) (fuel : Nat) (hfuel : 0 < fuel)
    (h : cfg.total_rows ≤ (loadProgress tracker table cfg.total_rows).migrated_rows) :
    (migrate_table_data tracker table cfg fuel).1.pages = [] ∧
    (migrate_table_data tracker table cfg fuel).1.target = [] ∧
    (migrate_table_data tracker table cfg fuel).2 = true ∧
    (migrate_table_data tracker table cfg fuel).1.progress.completed = true := by
  obtain ⟨fuel, rfl⟩ : ∃ m, fuel = m + 1 := ⟨fuel - 1, by omega⟩
  unfold migrate_table_data
  rcases hc : (loadProgress tracker table cfg.total_rows).completed with _ | _
  · rw [if_neg (by simp [hc])]
    rw [migrateLoop]
    rw [if_neg (by simp only [initRunState]; omega)]
    exact ⟨rfl, rfl, rfl, rfl⟩
  · rw [if_pos hc]
    exact ⟨rfl, rfl, rfl, hc⟩

def c5tracker : List (String × MigrationProgress) :=
  [("t", { table_name := "t", total_rows := 5, migrated_rows := 5 })]

def c5cfg : TableRun :=
  { src := [{ key := 1, cells := [] }], chunk_size := 2, columns := ["id"],
    primary_key := some "id", total_rows := 5, column_types := [("id", "integer")],
    failures := fun _ => false }

/-- C5 witness: a caught-up but not-completed checkpoint leads to a run
with no fetch and no insert that terminates completed. -/
theorem C5_caught_up_run_is_noop_witness :
    (migrate_table_data c5tracker "t" c5cfg 3).1.pages = [] ∧
    (migrate_table_data c5tracker "t" c5cfg 3).1.target = [] ∧
    (migrate_table_data c5tracker "t" c5cfg 3).2 = true ∧
    (migrate_table_data c5tracker "t" c5cfg 3).1.progress.completed = true :=
  C5_caught_up_run_is_noop c5tracker "t" c5cfg 3 (by decide) (by decide)

/-- Bound carried through the transfer loop for C1: every persisted
checkpoint, and the in-memory one, stays below `total_rows + chunk_size`. -/
def migratedBound (cfg : TableRun) (st : RunState) : Prop :=
  (∀ p ∈ st.persisted, p.migrated_rows < cfg.total_rows + cfg.chunk_size) ∧
  st.progress.migrated_rows < cfg.total_rows + cfg.chunk_size

theorem migrateStep_migratedBound (cfg : TableRun) (iter : Nat) (st : RunState)
    (hcond : st.progress.migrated_rows < cfg.total_rows)
    (hinv : migratedBound cfg st) :
    migratedBound cfg (migrateStep cfg iter st).1 := by
  by_cases hemp : fetchPage cfg st.progress = []
  · rw [migrateStep_empty cfg iter st hemp]
    exact ⟨hinv.1, hinv.2⟩
  · have hlen := fetchPage_length_le cfg st.progress
    rcases hf : cfg.failures iter with _ | _
    · rw [migrateStep_succeed cfg iter st hemp hf]
      refine ⟨?_, by simpa using by omega⟩
      intro p hp
      rcases List.mem_append.mp hp with hp | hp
      · exact hinv.1 p hp
      · have hp2 := List.mem_singleton.mp hp
        subst hp2
        simpa using by omega
    · rw [migrateStep_fail cfg iter st hemp hf]
      exact ⟨hinv.1, hinv.2⟩

theorem migrateLoop_migratedBound (cfg : TableRun) :
    ∀ (fuel iter : Nat) (st : RunState), migratedBound cfg st →
      migratedBound cfg (migrateLoop cfg fuel iter st).1 := by
  intro fuel
  induction fuel with
  | zero => exact fun iter st h => h
  | succ n ih =>
      intro iter st h
      rw [migrateLoop]
      split
      · next hcond =>
          have hstep := migrateStep_migratedBound cfg iter st hcond h
          rcases hs : migrateStep cfg iter st with ⟨st1, brk⟩
          rw [hs] at hstep
          cases brk
          · exact ih (iter + 1) st1 hstep
          · exact hstep
      · exact h

/-- C1: the claimed invariant `migrated_rows ≤ total_rows` fails on the
code, but only by less than one chunk: in any run whose loaded checkpoint
is below `total_rows + chunk_size` (in particular any fresh checkpoint),
every persisted checkpoint and the final in-memory one stay strictly
below `total_rows + chunk_size`. -/
theorem C1_migrated_rows_bound (tracker : List (String × MigrationProgress)) (table : String)
    (cfg : TableRun) (fuel : Nat)
    (h : (loadProgress tracker table cfg.total_rows).migrated_rows
          < cfg.total_rows + cfg.chunk_size) :
    (∀ p ∈ (migrate_table_data tracker table cfg fuel).1.persisted,
        p.migrated_rows < cfg.total_rows + cfg.chunk_size) ∧
    (migrate_table_data tracker table cfg fuel).1.progress.migrated_rows
        < cfg.total_rows + cfg.chunk_size := by
  simp only [migrate_table_data]
  rcases hc : (loadProgress tracker table cfg.total_rows).completed with _ | _
  case true =>
    rw [if_pos rfl]
    exact ⟨by simp [initRunState], by simpa [initRunState] using h⟩
  case false =>
    rw [if_neg (by simp)]
    have hloop := migrateLoop_migratedBound cfg fuel 0
      (initRunState (loadProgress tracker table cfg.total_rows))
      ⟨by simp [initRunState], by simpa [initRunState] using h⟩
    rcases hl : migrateLoop cfg fuel 0 (initRunState (loadProgress tracker table cfg.total_rows))
      with ⟨st, ex⟩
    rw [hl] at hloop
    cases ex
    · exact hloop
    · refine ⟨?_, hloop.2⟩
      intro p hp
      rcases List.mem_append.mp hp with hp | hp
      · exact hloop.1 p hp
      · have hp2 := List.mem_singleton.mp hp
        subst hp2
        simpa using hloop.2

def c1cfg : TableRun :=
  { src := [{ key := 1, cells := [] }, { key := 2, cells := [] },
            { key := 3, cells := [] }, { key := 4, cells := [] }]
    chunk_size := 2, columns := ["id"], primary_key := some "id"
    total_rows := 3, column_types := [("id", "integer")], failures := fun _ => false }

/-- C1 counterexample: a table whose checkpoint captured `total_rows = 3`
but whose source has grown to 4 rows ends the run, and persists a
checkpoint, with `migrated_rows = 4 > 3 = total_rows` — the claimed
invariant `migrated_rows ≤ total_rows` is false as stated. -/
theorem C1_migrated_rows_bound_counterexample :
    (migrate_table_data [] "t" c1cfg 10).1.progress.migrated_rows = 4 ∧
    (migrate_table_data [] "t" c1cfg 10).1.progress.total_rows = 3 ∧
    ¬((migrate_table_data [] "t" c1cfg 10).1.progress.migrated_rows ≤
        (migrate_table_data [] "t" c1cfg 10).1.progress.total_rows) ∧
    (∃ p ∈ (migrate_table_data [] "t" c1cfg 10).1.persisted,
        ¬(p.migrated_rows ≤ p.total_rows)) := by decide

/-- C1 witness: the amended bound applied to the very run of the
counterexample — every checkpoint stays below `total_rows + chunk_size`. -/
theorem C1_migrated_rows_bound_witness :
    (∀ p ∈ (migrate_table_data [] "t" c1cfg 10).1.persisted,
        p.migrated_rows < c1cfg.total_rows + c1cfg.chunk_size) ∧
    (migrate_table_data [] "t" c1cfg 10).1.progress.migrated_rows
        < c1cfg.total_rows + c1cfg.chunk_size :=
  C1_migrated_rows_bound [] "t" c1cfg 10 (by decide)

/-- C8: a chunk failure rolls the target transaction back and leaves the
checkpoint exactly as it was (nothing but the page log and the fixed
5-second backoff log grow, with no backoff growth), the next iteration
refetches the very same page, and the retry loop has no ceiling: under
`n` consecutive failures the loop neither advances nor persists the
checkpoint, never marks the table completed or failed, and keeps
running. -/
theorem C8_chunk_failure_retries_same_page (cfg : TableRun) :
    (∀ (iter : Nat) (st : RunState), cfg.failures iter = true →
        fetchPage cfg st.progress ≠ [] →
        migrateStep cfg iter st =
          ({ st with pages := st.pages ++ [fetchPage cfg st.progress],
                     failDelays := st.failDelays ++ [5] }, false) ∧
        fetchPage cfg (migrateStep cfg iter st).1.progress = fetchPage cfg st.progress) ∧
    (∀ (n iter : Nat) (st : RunState),
        st.progress.migrated_rows < cfg.total_rows →
        fetchPage cfg st.progress ≠ [] →
        (∀ k, k < n → cfg.failures (iter + k) = true) →
        migrateLoop cfg n iter st =
          ({ st with pages := st.pages ++ List.replicate n (fetchPage cfg st.progress),
                     failDelays := st.failDelays ++ List.replicate n 5 }, false)) := by
  have hstep : ∀ (iter : Nat) (st : RunState), cfg.failures iter = true →
      fetchPage cfg st.progress ≠ [] →
      migrateStep cfg iter st =
        ({ st with pages := st.pages ++ [fetchPage cfg st.progress],
                   failDelays := st.failDelays ++ [5] }, false) :=
    fun iter st hf hne => migrateStep_fail cfg iter st hne hf
  refine ⟨fun iter st hf hne => ⟨hstep iter st hf hne, by rw [hstep iter st hf hne]⟩, ?_⟩
  intro n
  induction n with
  | zero => intro iter st _ _ _; simp [migrateLoop]
  | succ m ih =>
      intro iter st hcond hne hfail
      rw [migrateLoop, if_pos hcond, hstep iter st (hfail 0 (by omega)) hne]
      have hih := ih (iter + 1)
        { st with pages := st.pages ++ [fetchPage cfg st.progress],
                  failDelays := st.failDelays ++ [5] }
        hcond hne
        (fun k hk => by
          have := hfail (k + 1) (by omega)
          rwa [show iter + 1 + k = iter + (k + 1) by omega])
      exact hih.trans (by simp [List.append_assoc, List.replicate_succ])

def c8cfg : TableRun :=
  { src := [{ key := 1, cells := [] }], chunk_size := 1, columns := ["id"],
    primary_key := some "id", total_rows := 1, column_types := [("id", "integer")],
    failures := fun _ => true }

def c8st : RunState :=
  initRunState { table_name := "t", total_rows := 1, migrated_rows := 0 }

/-- C8 witness: with every insert failing, three loop iterations refetch
the same page three times, record three fixed 5-second delays, and leave
the state otherwise untouched with the loop still running. -/
theorem C8_chunk_failure_retries_same_page_witness :
    migrateLoop c8cfg 3 0 c8st =
      ({ c8st with pages := c8st.pages ++ List.replicate 3 (fetchPage c8cfg c8st.progress),
                   failDelays := c8st.failDelays ++ List.replicate 3 5 }, false) :=
  (C8_chunk_failure_retries_same_page c8cfg).2 3 0 c8st (by decide)
    (by rw [show fetchPage c8cfg c8st.progress = [{ key := 1, cells := [] }] from rfl]; simp)
    (fun k _ => rfl)

def c3cfg : TableRun :=
  { src := (List.range 7).map (fun i => { key := i + 1, cells := [] })
    chunk_size := 5, columns := ["id"], primary_key := some "id"
    total_rows := 10, column_types := [("id", "integer")], failures := fun _ => false }

/-- C3: an empty fetched page stops the transfer loop immediately
(changing nothing but the page log), a terminated run always ends with
`completed = true`, and in particular a table whose checkpoint records
`total_rows = 10` over a source holding only 7 rows ends with
`completed = true` and `migrated_rows = 7` after pages of 5, 2 and 0
rows, instead of retrying for the missing rows. -/
theorem C3_empty_page_completes :
    (∀ (cfg : TableRun) (fuel iter : Nat) (st : RunState),
        st.progress.migrated_rows < cfg.total_rows →
        fetchPage cfg st.progress = [] →
        migrateLoop cfg (fuel + 1) iter st = ({ st with pages := st.pages ++ [[]] }, true)) ∧
    (∀ (tracker : List (String × MigrationProgress)) (table : String)
        (cfg : TableRun) (fuel : Nat),
        (migrate_table_data tracker table cfg fuel).2 = true →
        (migrate_table_data tracker table cfg fuel).1.progress.completed = true) ∧
    ((migrate_table_data [] "t" c3cfg 10).1.progress.completed = true ∧
     (migrate_table_data [] "t" c3cfg 10).1.progress.migrated_rows = 7 ∧
     (migrate_table_data [] "t" c3cfg 10).2 = true ∧
     (migrate_table_data [] "t" c3cfg 10).1.pages.map List.length = [5, 2, 0]) := by
  refine ⟨?_, ?_, by decide⟩
  · intro cfg fuel iter st hcond he
    rw [migrateLoop, if_pos hcond, migrateStep_empty cfg iter st he]
  · intro tracker table cfg fuel
    simp only [migrate_table_data]
    rcases hc : (loadProgress tracker table cfg.total_rows).completed with _ | _
    case true => exact fun _ => hc
    case false =>
      rw [if_neg (by simp)]
      rcases hl : migrateLoop cfg fuel 0 (initRunState (loadProgress tracker table cfg.total_rows))
        with ⟨st, ex⟩
      cases ex
      · exact fun h => absurd h (by simp)
      · exact fun _ => rfl

def c3wcfg : TableRun :=
  { src := [], chunk_size := 5, columns := ["id"], primary_key := some "id",
    total_rows := 1, column_types := [("id", "integer")], failures := fun _ => false }

def c3wst : RunState :=
  initRunState { table_name := "t", total_rows := 1, migrated_rows := 0 }

/-- C3 witness: on an empty source the first fetch is empty, the loop
stops at once and only the page log records the empty page. -/
theorem C3_empty_page_completes_witness :
    migrateLoop c3wcfg 1 0 c3wst = ({ c3wst with pages := c3wst.pages ++ [[]] }, true) :=
  C3_empty_page_completes.1 c3wcfg 0 0 c3wst (by decide) rfl

/-! ### Round-trip of the stored high-water mark

`last_primary_key` is stored as `str(key)` and compared by the database
after casting back to the integer key type; `parseKey` is that cast, and
it inverts `toString` on naturals. -/

theorem digitChar_isDigit (r : Nat) (h : r < 10) : (Nat.digitChar r).isDigit = true := by
  interval_cases r <;> decide

theorem digitChar_toNat (r : Nat) (h : r < 10) : (Nat.digitChar r).toNat - 48 = r := by
  interval_cases r <;> decide

theorem toDigitsCore_ne_nil (fuel : Nat) :
    ∀ (n : Nat) (ds : List Char), ds ≠ [] → Nat.toDigitsCore 10 fuel n ds ≠ [] := by
  induction fuel with
  | zero => exact fun n ds h => h
  | succ m ih =>
      intro n ds h
      rw [Nat.toDigitsCore]
      split
      · simp
      · exact ih _ _ (by simp)

theorem toDigitsCore_digits (fuel : Nat) :
    ∀ (n : Nat) (ds : List Char), (∀ c ∈ ds, c.isDigit = true) →
      ∀ c ∈ Nat.toDigitsCore 10 fuel n ds, c.isDigit = true := by
  induction fuel with
  | zero => exact fun n ds h => h
  | succ m ih =>
      intro n ds h
      have hd : ∀ c ∈ Nat.digitChar (n % 10) :: ds, c.isDigit = true := by
        intro c hc
        rcases List.mem_cons.mp hc with rfl | hc
        · exact digitChar_isDigit _ (Nat.mod_lt _ (by omega))
        · exact h c hc
      rw [Nat.toDigitsCore]
      split
      · exact hd
      · exact ih _ _ hd

theorem toDigitsCore_foldl (fuel : Nat) :
    ∀ (n : Nat) (ds : List Char) (a : Nat), n < 10 ^ fuel →
      ∃ k, (Nat.toDigitsCore 10 fuel n ds).foldl (fun acc c => acc * 10 + (c.toNat - 48)) a
            = ds.foldl (fun acc c => acc * 10 + (c.toNat - 48)) (a * 10 ^ k + n) ∧
           n < 10 ^ k := by
  induction fuel with
  | zero =>
      intro n ds a hn
      have hn0 : n = 0 := by simpa using hn
      subst hn0
      exact ⟨0, by simp [Nat.toDigitsCore], by simp⟩
  | succ m ih =>
      intro n ds a hn
      rw [Nat.toDigitsCore]
      split
      · next hdiv =>
          have h10 : n < 10 := by omega
          refine ⟨1, ?_, by simpa using h10⟩
          simp only [List.foldl_cons]
          rw [digitChar_toNat _ (Nat.mod_lt _ (by omega)), Nat.mod_eq_of_lt h10]
          norm_num
      · next hdiv =>
          have hlt : n / 10 < 10 ^ m := by
            rw [Nat.div_lt_iff_lt_mul (by omega)]
            calc n < 10 ^ (m + 1) := hn
              _ = 10 ^ m * 10 := by ring
          obtain ⟨k, hfold, hk⟩ := ih (n / 10) (Nat.digitChar (n % 10) :: ds) a hlt
          have hdm : 10 * (n / 10) + n % 10 = n := Nat.div_add_mod n 10
          have hr : n % 10 < 10 := Nat.mod_lt _ (by omega)
          refine ⟨k + 1, ?_, ?_⟩
          · rw [hfold]
            simp only [List.foldl_cons]
            rw [digitChar_toNat _ hr]
            have : (a * 10 ^ k + n / 10) * 10 + n % 10 = a * 10 ^ (k + 1) + n := by
              calc (a * 10 ^ k + n / 10) * 10 + n % 10
                  = a * (10 ^ k * 10) + (10 * (n / 10) + n % 10) := by ring
                _ = a * 10 ^ (k + 1) + n := by rw [hdm, pow_succ]
            rw [this]
          · calc n = 10 * (n / 10) + n % 10 := hdm.symm
              _ < 10 * 10 ^ k := by omega
              _ = 10 ^ (k + 1) := by rw [pow_succ]; ring

theorem toString_nat_data (n : Nat) :
    (toString n).data = Nat.toDigitsCore 10 (n + 1) n [] := rfl

theorem toString_nat_data_ne_nil (n : Nat) : (toString n).data ≠ [] := by
  rw [toString_nat_data, Nat.toDigitsCore]
  split
  · simp
  · exact toDigitsCore_ne_nil _ _ _ (by simp)

/-- The database's cast of the stored text key inverts `str(key)`. -/
theorem parseKey_toString (n : Nat) : parseKey (toString n) = n := by
  have hpow : n < 10 ^ (n + 1) :=
    lt_of_lt_of_le (Nat.lt_pow_self (by norm_num) n)
      (Nat.pow_le_pow_right (by norm_num) (Nat.le_succ n))
  have hdig : ∀ c ∈ Nat.toDigitsCore 10 (n + 1) n [], c.isDigit = true :=
    toDigitsCore_digits _ _ _ (by simp)
  obtain ⟨k, hfold, _⟩ := toDigitsCore_foldl (n + 1) n [] 0 hpow
  rw [parseKey, toString_nat_data]
  rw [if_pos]
  · rw [digitsVal, hfold]
    simp
  · rw [allDigits]
    refine (Bool.and_eq_true _ _).mpr ⟨?_, ?_⟩
    · have hne : Nat.toDigitsCore 10 (n + 1) n [] ≠ [] := by
        rw [← toString_nat_data]
        exact toString_nat_data_ne_nil n
      simpa [List.isEmpty_iff] using hne
    · exact List.all_eq_true.mpr hdig

/-! ### Keyset monotonicity -/

/-- Every key of page `p` is strictly below every key of page `q`
(equivalently: `max p < min q` for non-empty pages). -/
def pageLE (p q : List SRow) : Prop := ∀ a ∈ p, ∀ b ∈ q, a.key < b.key

/-- Strictly increasing stored high-water marks along persisted
checkpoints, ignoring the final completed re-persist (which repeats the
mark without updating it). -/
def persRel (p q : MigrationProgress) : Prop :=
  q.completed = false →
    parseKey ((p.last_primary_key).getD "") < parseKey ((q.last_primary_key).getD "")

theorem fetchPage_sorted (cfg : TableRun) (pr : MigrationProgress)
    (hpk : truthyStr cfg.primary_key = true) :
    List.Pairwise keyle (fetchPage cfg pr) := by
  have hsort : List.Pairwise keyle (sortByKey cfg.src) :=
    List.sorted_insertionSort keyle cfg.src
  rw [fetchPage]
  split
  · exact List.Pairwise.sublist ((List.take_sublist _ _).trans (List.filter_sublist _)) hsort
  · exact List.Pairwise.sublist ((List.take_sublist _ _).trans (List.drop_sublist _ _)) hsort

/-- `migrateStep_succeed`, specialized to a table with a (truthy) primary
key: the high-water mark is updated to the page's last key. -/
theorem migrateStep_succeed_pk (cfg : TableRun) (iter : Nat) (st : RunState)
    (hne : fetchPage cfg st.progress ≠ []) (hf : cfg.failures iter = false)
    (hpk : truthyStr cfg.primary_key = true) :
    migrateStep cfg iter st =
      ({ st with
          progress := { st.progress with
            migrated_rows := st.progress.migrated_rows + (fetchPage cfg st.progress).length,
            last_primary_key := some (toString (lastRowKey (fetchPage cfg st.progress))) },
          target := st.target ++ (fetchPage cfg st.progress).map
            (convertRowCells cfg.column_types cfg.columns),
          pages := st.pages ++ [fetchPage cfg st.progress],
          persisted := st.persisted ++ [{ st.progress with
            migrated_rows := st.progress.migrated_rows + (fetchPage cfg st.progress).length,
            last_primary_key := some (toString (lastRowKey (fetchPage cfg st.progress))) }] },
       decide (cfg.total_rows ≤ st.progress.migrated_rows + (fetchPage cfg st.progress).length)) := by
  rw [migrateStep_succeed cfg iter st hne hf]
  simp [hpk]

theorem lastRowKey_mem : ∀ (l : List SRow), l ≠ [] → ∃ b ∈ l, lastRowKey l = b.key
  | [], h => absurd rfl h
  | [x], _ => ⟨x, List.mem_singleton_self x, rfl⟩
  | x :: y :: u, _ => by
      obtain ⟨b, hb, hk⟩ := lastRowKey_mem (y :: u) (by simp)
      refine ⟨b, List.mem_cons_of_mem x hb, ?_⟩
      rw [show lastRowKey (x :: y :: u) = lastRowKey (y :: u) from by
            simp [lastRowKey, List.getLast?_cons_cons], hk]

theorem key_le_lastRowKey (l : List SRow) (hl : List.Pairwise keyle l) :
    ∀ a ∈ l, a.key ≤ lastRowKey l := by
  induction l with
  | nil => exact fun a ha => absurd ha (List.not_mem_nil a)
  | cons x t ih =>
      intro a ha
      cases t with
      | nil =>
          rcases List.mem_singleton.mp ha with rfl
          exact le_refl _
      | cons y u =>
          have hlast : lastRowKey (x :: y :: u) = lastRowKey (y :: u) := by
            simp [lastRowKey, List.getLast?_cons_cons]
          rcases List.mem_cons.mp ha with rfl | ha
          · obtain ⟨b, hb, hk⟩ := lastRowKey_mem (y :: u) (by simp)
            rw [hlast, hk]
            exact (List.pairwise_cons.mp hl).1 b hb
          · rw [hlast]
            exact ih (List.pairwise_cons.mp hl).2 a ha

theorem fetchPage_keyset_gt (cfg : TableRun) (pr : MigrationProgress)
    (hlt : truthyStr pr.last_primary_key = true) (hpk : truthyStr cfg.primary_key = true) :
    ∀ r ∈ fetchPage cfg pr, parseKey ((pr.last_primary_key).getD "") < r.key := by
  intro r hr
  rw [fetchPage, if_pos ⟨hlt, hpk⟩] at hr
  exact of_decide_eq_true (List.mem_filter.mp (List.mem_of_mem_take hr)).2

/-- Invariant carried through a failure-free keyset run: fetched pages are
chainwise strictly increasing, the current high-water mark bounds the last
fetched page, persisted marks are chainwise strictly increasing, the last
persisted checkpoint is the in-memory one, and `completed` stays unset
inside the loop. -/
def keysetInv (st : RunState) : Prop :=
  List.Chain' pageLE st.pages ∧
  (∀ p, st.pages.getLast? = some p → p ≠ [] →
      truthyStr st.progress.last_primary_key = true ∧
      ∀ a ∈ p, a.key ≤ parseKey ((st.progress.last_primary_key).getD "")) ∧
  List.Chain' persRel st.persisted ∧
  (∀ q, st.persisted.getLast? = some q → q = st.progress) ∧
  st.progress.completed = false ∧
  (st.persisted ≠ [] → truthyStr st.progress.last_primary_key = true)

theorem migrateStep_keysetInv (cfg : TableRun) (iter : Nat) (st : RunState)
    (hpk : truthyStr cfg.primary_key = true) (hf : cfg.failures iter = false)
    (hinv : keysetInv st) :
    keysetInv (migrateStep cfg iter st).1 := by
  obtain ⟨hchain, hlink, hpchain, hplast, hcomp, hptr⟩ := hinv
  by_cases hemp : fetchPage cfg st.progress = []
  · rw [migrateStep_empty cfg iter st hemp]
    refine ⟨?_, ?_, hpchain, hplast, hcomp, hptr⟩
    · rw [List.chain'_append]
      refine ⟨hchain, List.chain'_singleton _, fun x hx y hy => ?_⟩
      have hy' : y = [] := by simpa using hy
      subst hy'
      exact fun a _ b hb => absurd hb (List.not_mem_nil b)
    · intro p hp hne
      rw [List.getLast?_concat] at hp
      cases hp
      exact absurd rfl hne
  · rw [migrateStep_succeed_pk cfg iter st hemp hf hpk]
    set rows := fetchPage cfg st.progress with hrows
    have hsorted : List.Pairwise keyle rows := fetchPage_sorted cfg st.progress hpk
    have hbound : ∀ a ∈ rows, a.key ≤ lastRowKey rows := key_le_lastRowKey rows hsorted
    have htruthy : truthyStr (some (toString (lastRowKey rows))) = true := by
      simpa [truthyStr, List.isEmpty_iff] using toString_nat_data_ne_nil (lastRowKey rows)
    have hparse : parseKey ((some (toString (lastRowKey rows))).getD "") = lastRowKey rows := by
      simpa using parseKey_toString (lastRowKey rows)
    have hgt : ∀ htr : truthyStr st.progress.last_primary_key = true,
        ∀ r ∈ rows, parseKey ((st.progress.last_primary_key).getD "") < r.key := by
      intro htr
      rw [hrows]
      exact fetchPage_keyset_gt cfg st.progress htr hpk
    refine ⟨?_, ?_, ?_, ?_, hcomp, fun _ => htruthy⟩
    · rw [List.chain'_append]
      refine ⟨hchain, List.chain'_singleton _, fun x hx y hy => ?_⟩
      obtain rfl : rows = y := by simpa using hy
      intro a ha b hb
      rcases x with _ | ⟨x0, xt⟩
      · exact absurd ha (List.not_mem_nil a)
      · have hx' := hlink (x0 :: xt) (Option.mem_def.mp hx) (by simp)
        exact lt_of_le_of_lt (hx'.2 a ha) (hgt hx'.1 b hb)
    · intro p hp hne
      rw [List.getLast?_concat] at hp
      cases hp
      exact ⟨htruthy, fun a ha => by rw [hparse]; exact hbound a ha⟩
    · rw [List.chain'_append]
      refine ⟨hpchain, List.chain'_singleton _, fun x hx y hy => ?_⟩
      obtain rfl : _ = y := by simpa using hy
      intro _
      have hx' := hplast x (Option.mem_def.mp hx)
      subst hx'
      simp only [hparse]
      have htr : truthyStr st.progress.last_primary_key = true :=
        hptr (by
          intro hnil
          rw [hnil] at hx
          simp at hx)
      obtain ⟨b, hb, hk⟩ := lastRowKey_mem rows hemp
      rw [hk]
      exact hgt htr b hb
    · intro q hq
      rw [List.getLast?_concat] at hq
      cases hq
      rfl

theorem migrateLoop_keysetInv (cfg : TableRun)
    (hpk : truthyStr cfg.primary_key = true) (hff : ∀ i, cfg.failures i = false) :
    ∀ (fuel iter : Nat) (st : RunState), keysetInv st →
      keysetInv (migrateLoop cfg fuel iter st).1 := by
  intro fuel
  induction fuel with
  | zero => exact fun iter st h => h
  | succ n ih =>
      intro iter st h
      rw [migrateLoop]
      split
      · have hstep := migrateStep_keysetInv cfg iter st hpk (hff iter) h
        rcases hs : migrateStep cfg iter st with ⟨st1, brk⟩
        rw [hs] at hstep
        cases brk
        · exact ih (iter + 1) st1 hstep
        · exact hstep
      · exact h

/-- C4: in a failure-free run over a table with a primary key, the fetched
pages are pairwise strictly increasing — every key of page `N+1` exceeds
every key of page `N`, so the minimum of page `N+1` exceeds the maximum of
page `N` — and the persisted `last_primary_key` strictly increases (under
the key ordering) at every update. -/
theorem C4_keyset_monotone (tracker : List (String × MigrationProgress)) (table : String)
    (cfg : TableRun) (fuel : Nat)
    (hpk : truthyStr cfg.primary_key = true) (hff : ∀ i, cfg.failures i = false) :
    List.Chain' pageLE (migrate_table_data tracker table cfg fuel).1.pages ∧
    List.Chain' persRel (migrate_table_data tracker table cfg fuel).1.persisted := by
  simp only [migrate_table_data]
  rcases hc : (loadProgress tracker table cfg.total_rows).completed with _ | _
  case true =>
    rw [if_pos rfl]
    exact ⟨List.chain'_nil, List.chain'_nil⟩
  case false =>
    rw [if_neg (by simp)]
    have hinit : keysetInv (initRunState (loadProgress tracker table cfg.total_rows)) := by
      refine ⟨List.chain'_nil, ?_, List.chain'_nil, ?_, hc, ?_⟩
      · intro p hp; simp [initRunState] at hp
      · intro q hq; simp [initRunState] at hq
      · intro hne; simp [initRunState] at hne
    have hloop := migrateLoop_keysetInv cfg hpk hff fuel 0
      (initRunState (loadProgress tracker table cfg.total_rows)) hinit
    rcases hl : migrateLoop cfg fuel 0 (initRunState (loadProgress tracker table cfg.total_rows))
      with ⟨st, ex⟩
    rw [hl] at hloop
    obtain ⟨hchain, _, hpchain, _, _, _⟩ := hloop
    cases ex
    · exact ⟨hchain, hpchain⟩
    · refine ⟨hchain, ?_⟩
      rw [List.chain'_append]
      refine ⟨hpchain, List.chain'_singleton _, fun x hx y hy => ?_⟩
      have hy' : { st.progress with completed := true } = y := by simpa using hy
      subst hy'
      intro hfalse
      simp at hfalse

def c4cfg : TableRun :=
  { src := [{ key := 3, cells := [] }, { key := 1, cells := [] }, { key := 2, cells := [] }]
    chunk_size := 2, columns := ["id"], primary_key := some "id"
    total_rows := 3, column_types := [("id", "integer")], failures := fun _ => false }

/-- C4 witness: a concrete three-row keyset run has chainwise strictly
increasing pages and persisted high-water marks. -/
theorem C4_keyset_monotone_witness :
    List.Chain' pageLE (migrate_table_data [] "t" c4cfg 10).1.pages ∧
    List.Chain' persRel (migrate_table_data [] "t" c4cfg 10).1.persisted :=
  C4_keyset_monotone [] "t" c4cfg 10 (by decide) (fun _ => rfl)

/-! ### The 2500-row / chunk-1000 scenario

The source table is too large to be evaluated inside the kernel, so the
run is computed symbolically: pages are segments of `rowsFrom`, an
ascending block of keyed rows. -/

def mkRow (k : Nat) : SRow := { key := k, cells := [] }

/-- `n` rows with consecutive keys `s, s+1, …, s+n-1`. -/
def rowsFrom (s n : Nat) : List SRow := (List.range' s n).map mkRow

theorem rowsFrom_length (s n : Nat) : (rowsFrom s n).length = n := by
  simp [rowsFrom]

theorem rowsFrom_ne_nil (s n : Nat) (h : 0 < n) : rowsFrom s n ≠ [] := by
  intro hnil
  have := congrArg List.length hnil
  rw [rowsFrom_length] at this
  simp at this
  omega

theorem rowsFrom_sorted (s n : Nat) : List.Pairwise keyle (rowsFrom s n) := by
  rw [rowsFrom, List.pairwise_map]
  exact (List.pairwise_lt_range' s n).imp fun h => Nat.le_of_lt h

theorem sortByKey_rowsFrom (s n : Nat) : sortByKey (rowsFrom s n) = rowsFrom s n :=
  List.Sorted.insertionSort_eq (rowsFrom_sorted s n)

theorem rowsFrom_append (s m n : Nat) :
    rowsFrom s (m + n) = rowsFrom s m ++ rowsFrom (s + m) n := by
  rw [rowsFrom, rowsFrom, rowsFrom, ← List.map_append, List.range'_append_1, Nat.add_comm m n]

theorem rowsFrom_take (s m n : Nat) (h : m ≤ n) : (rowsFrom s n).take m = rowsFrom s m := by
  rw [show n = m + (n - m) by omega, rowsFrom_append]
  exact List.take_left' (rowsFrom_length s m)

theorem rowsFrom_drop (s m n : Nat) (h : m ≤ n) :
    (rowsFrom s n).drop m = rowsFrom (s + m) (n - m) := by
  rw [show n = m + (n - m) by omega, rowsFrom_append]
  rw [List.drop_left' (rowsFrom_length s m)]
  rw [show m + (n - m) - m = n - m by omega]

theorem mem_rowsFrom_key (s n : Nat) (r : SRow) (h : r ∈ rowsFrom s n) :
    s ≤ r.key ∧ r.key < s + n := by
  rw [rowsFrom, List.mem_map] at h
  obtain ⟨k, hk, rfl⟩ := h
  exact List.mem_range'_1.mp hk

theorem rowsFrom_filter_gt (s n K : Nat) (h1 : s ≤ K + 1) (h2 : K + 1 ≤ s + n) :
    (rowsFrom s n).filter (fun r => K < r.key) = rowsFrom (K + 1) (s + n - (K + 1)) := by
  rw [show n = (K + 1 - s) + (s + n - (K + 1)) by omega, rowsFrom_append,
      List.filter_append]
  rw [show s + (K + 1 - s) = K + 1 by omega]
  have hlo : (rowsFrom s (K + 1 - s)).filter (fun r => K < r.key) = [] := by
    rw [List.filter_eq_nil_iff]
    intro a ha
    have := mem_rowsFrom_key _ _ a ha
    simp only [decide_eq_true_eq]
    omega
  have hhi : (rowsFrom (K + 1) (s + n - (K + 1))).filter (fun r => K < r.key) =
      rowsFrom (K + 1) (s + n - (K + 1)) := by
    rw [List.filter_eq_self]
    intro a ha
    have := mem_rowsFrom_key _ _ a ha
    simp only [decide_eq_true_eq]
    omega
  rw [hlo, hhi, List.nil_append]
  congr 1
  omega

theorem lastRowKey_rowsFrom (s n : Nat) (h : 0 < n) :
    lastRowKey (rowsFrom s n) = s + n - 1 := by
  rw [show n = (n - 1) + 1 by omega, rowsFrom_append]
  rw [lastRowKey, show rowsFrom (s + (n - 1)) 1 = [mkRow (s + (n - 1))] from rfl,
      List.getLast?_concat]
  simp [mkRow]

def c2cfg : TableRun :=
  { src := rowsFrom 1 2500, chunk_size := 1000, columns := ["id"], primary_key := some "id"
    total_rows := 2500, column_types := [("id", "integer")], failures := fun _ => false }

def c2pr0 : MigrationProgress :=
  { table_name := "orders", total_rows := 2500, migrated_rows := 0 }

def c2pr1 : MigrationProgress :=
  { table_name := "orders", total_rows := 2500, migrated_rows := 1000,
    last_primary_key := some "1000" }

def c2pr2 : MigrationProgress :=
  { table_name := "orders", total_rows := 2500, migrated_rows := 2000,
    last_primary_key := some "2000" }

def c2pr3 : MigrationProgress :=
  { table_name := "orders", total_rows := 2500, migrated_rows := 2500,
    last_primary_key := some "2500" }

/-- Converted form of a page under the scenario's column map. -/
def c2conv (p : List SRow) : List (List PyVal) :=
  p.map (convertRowCells c2cfg.column_types c2cfg.columns)

def c2st0 : RunState := initRunState c2pr0

def c2st1 : RunState :=
  { progress := c2pr1, target := c2conv (rowsFrom 1 1000),
    pages := [rowsFrom 1 1000], persisted := [c2pr1], failDelays := [] }

def c2st2 : RunState :=
  { progress := c2pr2, target := c2conv (rowsFrom 1 1000) ++ c2conv (rowsFrom 1001 1000),
    pages := [rowsFrom 1 1000, rowsFrom 1001 1000], persisted := [c2pr1, c2pr2],
    failDelays := [] }

def c2st3 : RunState :=
  { progress := c2pr3,
    target := c2conv (rowsFrom 1 1000) ++ c2conv (rowsFrom 1001 1000) ++ c2conv (rowsFrom 2001 500),
    pages := [rowsFrom 1 1000, rowsFrom 1001 1000, rowsFrom 2001 500],
    persisted := [c2pr1, c2pr2, c2pr3], failDelays := [] }

theorem c2_fetch0 : fetchPage c2cfg c2pr0 = rowsFrom 1 1000 := by
  rw [fetchPage, if_neg (by simp [c2pr0, truthyStr]), if_pos (by decide)]
  rw [show c2cfg.src = rowsFrom 1 2500 from rfl, sortByKey_rowsFrom]
  rw [show c2pr0.migrated_rows = 0 from rfl, List.drop_zero]
  rw [show c2cfg.chunk_size = 1000 from rfl]
  exact rowsFrom_take 1 1000 2500 (by omega)

theorem c2_fetch1 : fetchPage c2cfg c2pr1 = rowsFrom 1001 1000 := by
  rw [fetchPage, if_pos ⟨by decide, by decide⟩]
  rw [show c2cfg.src = rowsFrom 1 2500 from rfl, sortByKey_rowsFrom]
  rw [show parseKey ((c2pr1.last_primary_key).getD "") = 1000 from by decide]
  rw [rowsFrom_filter_gt 1 2500 1000 (by omega) (by omega)]
  rw [show c2cfg.chunk_size = 1000 from rfl]
  rw [show 1 + 2500 - (1000 + 1) = 1500 from by omega]
  exact rowsFrom_take 1001 1000 1500 (by omega)

theorem c2_fetch2 : fetchPage c2cfg c2pr2 = rowsFrom 2001 500 := by
  rw [fetchPage, if_pos ⟨by decide, by decide⟩]
  rw [show c2cfg.src = rowsFrom 1 2500 from rfl, sortByKey_rowsFrom]
  rw [show parseKey ((c2pr2.last_primary_key).getD "") = 2000 from by decide]
  rw [rowsFrom_filter_gt 1 2500 2000 (by omega) (by omega)]
  rw [show 1 + 2500 - (2000 + 1) = 500 from by omega,
      show c2cfg.chunk_size = 1000 from rfl]
  exact List.take_of_length_le (by rw [rowsFrom_length]; omega)

theorem c2_step0 : migrateStep c2cfg 0 c2st0 = (c2st1, false) := by
  have hne : fetchPage c2cfg c2st0.progress ≠ [] := by
    rw [show c2st0.progress = c2pr0 from rfl, c2_fetch0]
    exact rowsFrom_ne_nil 1 1000 (by omega)
  rw [migrateStep_succeed_pk c2cfg 0 c2st0 hne rfl (by decide)]
  rw [show c2st0.progress = c2pr0 from rfl, c2_fetch0]
  rw [rowsFrom_length, lastRowKey_rowsFrom 1 1000 (by omega)]
  rw [show c2pr0.migrated_rows = 0 from rfl, show c2cfg.total_rows = 2500 from rfl]
  rw [show (1 : Nat) + 1000 - 1 = 1000 from by norm_num]
  rw [show toString (1000 : Nat) = "1000" from rfl]
  rw [show (0 : Nat) + 1000 = 1000 from by norm_num]
  rfl

theorem c2_step1 : migrateStep c2cfg 1 c2st1 = (c2st2, false) := by
  have hne : fetchPage c2cfg c2st1.progress ≠ [] := by
    rw [show c2st1.progress = c2pr1 from rfl, c2_fetch1]
    exact rowsFrom_ne_nil 1001 1000 (by omega)
  rw [migrateStep_succeed_pk c2cfg 1 c2st1 hne rfl (by decide)]
  rw [show c2st1.progress = c2pr1 from rfl, c2_fetch1]
  rw [rowsFrom_length, lastRowKey_rowsFrom 1001 1000 (by omega)]
  rw [show c2pr1.migrated_rows = 1000 from rfl, show c2cfg.total_rows = 2500 from rfl]
  rw [show (1001 : Nat) + 1000 - 1 = 2000 from by norm_num]
  rw [show toString (2000 : Nat) = "2000" from rfl]
  rw [show (1000 : Nat) + 1000 = 2000 from by norm_num]
  rfl

theorem c2_step2 : migrateStep c2cfg 2 c2st2 = (c2st3, true) := by
  have hne : fetchPage c2cfg c2st2.progress ≠ [] := by
    rw [show c2st2.progress = c2pr2 from rfl, c2_fetch2]
    exact rowsFrom_ne_nil 2001 500 (by omega)
  rw [migrateStep_succeed_pk c2cfg 2 c2st2 hne rfl (by decide)]
  rw [show c2st2.progress = c2pr2 from rfl, c2_fetch2]
  rw [rowsFrom_length, lastRowKey_rowsFrom 2001 500 (by omega)]
  rw [show c2pr2.migrated_rows = 2000 from rfl, show c2cfg.total_rows = 2500 from rfl]
  rw [show (2001 : Nat) + 500 - 1 = 2500 from by norm_num]
  rw [show toString (2500 : Nat) = "2500" from rfl]
  rw [show (2000 : Nat) + 500 = 2500 from by norm_num]
  rfl

theorem c2_loop : migrateLoop c2cfg 10 0 c2st0 = (c2st3, true) := by
  rw [migrateLoop, if_pos (by
        rw [show c2st0.progress.migrated_rows = 0 from rfl,
            show c2cfg.total_rows = 2500 from rfl]
        omega),
      c2_step0]
  show migrateLoop c2cfg 9 1 c2st1 = (c2st3, true)
  rw [migrateLoop, if_pos (by
        rw [show c2st1.progress.migrated_rows = 1000 from rfl,
            show c2cfg.total_rows = 2500 from rfl]
        omega),
      c2_step1]
  show migrateLoop c2cfg 8 2 c2st2 = (c2st3, true)
  rw [migrateLoop, if_pos (by
        rw [show c2st2.progress.migrated_rows = 2000 from rfl,
            show c2cfg.total_rows = 2500 from rfl]
        omega),
      c2_step2]

/-- The scenario run: table `orders`, primary key, 2500 source rows,
chunk_size 1000, no checkpoint yet, no failures. -/
def c2run : RunState × Bool := migrate_table_data [] "orders" c2cfg 10

/-- Unfolding of `migrate_table_data` when the loop terminates: the final
checkpoint is force-marked completed and persisted once more. -/
theorem migrate_table_data_loop_exited (tracker : List (String × MigrationProgress))
    (table : String) (cfg : TableRun) (fuel : Nat) (st : RunState)
    (hc : (loadProgress tracker table cfg.total_rows).completed = false)
    (hl : migrateLoop cfg fuel 0 (initRunState (loadProgress tracker table cfg.total_rows))
            = (st, true)) :
    migrate_table_data tracker table cfg fuel =
      ({ st with progress := { st.progress with completed := true },
                 persisted := st.persisted ++ [{ st.progress with completed := true }] },
       true) := by
  rw [migrate_table_data.eq_def]
  rw [if_neg (by simp [hc]), hl]

theorem c2run_eq :
    c2run = ({ c2st3 with progress := { c2pr3 with completed := true },
                          persisted := c2st3.persisted ++ [{ c2pr3 with completed := true }] },
              true) := by
  rw [c2run]
  exact migrate_table_data_loop_exited [] "orders" c2cfg 10 c2st3 rfl c2_loop

/-- C2: with a primary key, 2500 source rows and `chunk_size = 1000`, the
run fetches exactly 3 pages of sizes 1000, 1000 and 500; the persisted
checkpoints carry `migrated_rows` 1000 → 2000 → 2500 (each after its
chunk commits, then a final completed persist repeats 2500), and the
checkpoint ends `completed = true`. -/
theorem C2_three_page_scenario :
    c2run.1.pages.map List.length = [1000, 1000, 500] ∧
    c2run.1.persisted.map (fun p => p.migrated_rows) = [1000, 2000, 2500, 2500] ∧
    c2run.1.persisted.map (fun p => p.completed) = [false, false, false, true] ∧
    c2run.1.progress.completed = true ∧
    c2run.2 = true := by
  rw [c2run_eq]
  refine ⟨?_, ?_, ?_, rfl, rfl⟩
  · simp [c2st3, rowsFrom_length]
  · simp [c2st3, c2pr1, c2pr2, c2pr3]
  · simp [c2st3, c2pr1, c2pr2, c2pr3]

end MigrationModel
